import Mathlib

/-!
Verification of the TeleShare item-tracking core (`src/database.py`) and the
owner display-name resolution blocks of the chat layer (`src/bot.py`).

The SQLite store is embedded as a record of four row lists (`users`,
`pendrives`, `requests`, `transactions`) together with the `AUTOINCREMENT`
counters of the three tables that use generated ids.  `CURRENT_TIMESTAMP` is
embedded as an explicit `now : Nat` argument to every mutating operation.
Each `Database` method becomes a pure function from a store (and its
arguments) to a new store and the Python return value.
-/

namespace TeleShare

/-- Row of the `users` table: `user_id, username, first_name, last_name,
created_at`.  The Telegram fields may be `None`, hence `Option String`. -/
structure UserRow where
  user_id : Nat
  username : Option String
  first_name : Option String
  last_name : Option String
  created_at : Nat
  deriving DecidableEq

/-- Row of the `pendrives` table (the items): `id, name, description,
current_owner_id, created_at`.  `name` is declared `UNIQUE`; the owner
column is nullable in the schema. -/
structure Pendrive where
  id : Nat
  name : String
  description : String
  current_owner_id : Option Nat
  created_at : Nat
  deriving DecidableEq

/-- Row of the `requests` table: `id, pendrive_id, requester_id,
current_owner_id, status, message, created_at, resolved_at`.  `status` is a
`TEXT` column (default value `pending`), so it is embedded as `String`. -/
structure RequestRow where
  id : Nat
  pendrive_id : Nat
  requester_id : Nat
  current_owner_id : Nat
  status : String
  message : String
  created_at : Nat
  resolved_at : Option Nat
  deriving DecidableEq

/-- Row of the `transactions` table: `id, pendrive_id, from_user_id,
to_user_id, transaction_type, created_at`.  `from_user_id` is nullable. -/
structure TransactionRow where
  id : Nat
  pendrive_id : Nat
  from_user_id : Option Nat
  to_user_id : Nat
  transaction_type : String
  created_at : Nat
  deriving DecidableEq

/-- The persistent store: the four tables in rowid order, plus the next
`AUTOINCREMENT` value of each table with generated ids. -/
structure DB where
  users : List UserRow
  pendrives : List Pendrive
  requests : List RequestRow
  transactions : List TransactionRow
  next_pendrive_id : Nat
  next_request_id : Nat
  next_transaction_id : Nat
  deriving DecidableEq

/-- The store produced by `Database.init_database`: empty tables,
`AUTOINCREMENT` counters starting at 1. -/
def initDB : DB := ⟨[], [], [], [], 1, 1, 1⟩

/-- Embedding of `Database.add_user`: an `INSERT OR REPLACE INTO users` statement: any existing row
with the same primary key is deleted and the new row inserted. -/
def add_user (db : DB) (user_id : Nat) (username first_name last_name : Option String)
    (now : Nat) : DB :=
  { db with users := db.users.filter (fun u => u.user_id != user_id) ++
      [⟨user_id, username, first_name, last_name, now⟩] }

/-- Embedding of `Database.add_dgsc`: insert an item and its `initial_assignment`
transaction; the insert raises `IntegrityError` (and nothing is committed)
exactly when the `UNIQUE` item name already exists, in which case the method
returns `False`. -/
def add_dgsc (db : DB) (name description : String) (owner_id : Nat) (now : Nat) :
    DB × Bool :=
  if db.pendrives.any (fun p => p.name == name) then
    (db, false)
  else
    let dgsc_id := db.next_pendrive_id
    ({ db with
        pendrives := db.pendrives ++ [⟨dgsc_id, name, description, some owner_id, now⟩],
        next_pendrive_id := dgsc_id + 1,
        transactions := db.transactions ++
          [⟨db.next_transaction_id, dgsc_id, none, owner_id, "initial_assignment", now⟩],
        next_transaction_id := db.next_transaction_id + 1 },
      true)

/-- Embedding of `Database.get_user_dgscs`: the `SELECT id, name, description, created_at` query over
`pendrives` filtered on the owner. -/
def get_user_dgscs (db : DB) (user_id : Nat) : List (Nat × String × String × Nat) :=
  (db.pendrives.filter (fun p => p.current_owner_id == some user_id)).map
    (fun p => (p.id, p.name, p.description, p.created_at))

/-- Embedding of `Database.create_request`: unconditional `INSERT INTO requests`; the
`status` column takes its schema default `pending` and `resolved_at` is
left `NULL`.  Returns `cursor.lastrowid`. -/
def create_request (db : DB) (dgsc_id requester_id current_owner_id : Nat)
    (message : String) (now : Nat) : DB × Nat :=
  let request_id := db.next_request_id
  ({ db with
      requests := db.requests ++
        [⟨request_id, dgsc_id, requester_id, current_owner_id, "pending", message, now, none⟩],
      next_request_id := request_id + 1 },
    request_id)

/-- Embedding of `Database.accept_request`: the `SELECT ... FROM requests WHERE id AND pending status` query (`fetchone`, i.e. the first matching row); if no row,
return `False`; otherwise update the item owner (`UPDATE pendrives ... WHERE
id = ?`), mark the request accepted (`UPDATE requests ... WHERE id = ?`),
append a `transfer` transaction from the owner id snapshotted in the request
row, and return `True`. -/
def accept_request (db : DB) (request_id : Nat) (now : Nat) : DB × Bool :=
  match db.requests.find? (fun r => r.id == request_id && r.status == "pending") with
  | none => (db, false)
  | some r =>
    ({ db with
        pendrives := db.pendrives.map (fun p =>
          if p.id == r.pendrive_id then { p with current_owner_id := some r.requester_id }
          else p),
        requests := db.requests.map (fun q =>
          if q.id == request_id then { q with status := "accepted", resolved_at := some now }
          else q),
        transactions := db.transactions ++
          [⟨db.next_transaction_id, r.pendrive_id, some r.current_owner_id, r.requester_id,
            "transfer", now⟩],
        next_transaction_id := db.next_transaction_id + 1 },
      true)

/-- Embedding of `Database.reject_request`: the `UPDATE requests` statement that sets status `rejected` and
`resolved_at = CURRENT_TIMESTAMP` on the row with the given id and status
`pending`; returns `rowcount > 0`. -/
def reject_request (db : DB) (request_id : Nat) (now : Nat) : DB × Bool :=
  ({ db with
      requests := db.requests.map (fun q =>
        if q.id == request_id && q.status == "pending" then
          { q with status := "rejected", resolved_at := some now }
        else q) },
    decide (0 < db.requests.countP (fun q => q.id == request_id && q.status == "pending")))

/-! ### SQL `LIKE`

`search_dgsc` filters with `name LIKE percent-term-percent OR description
LIKE percent-term-percent`.  The default `LIKE` of SQLite treats `%` as "any sequence of characters", `_` as
"any single character", and folds case for the ASCII range only. -/

/-- ASCII-only lower-casing, as the `LIKE` of SQLite performs. -/
def asciiLower (c : Char) : Char :=
  if 'A' ≤ c ∧ c ≤ 'Z' then Char.ofNat (c.toNat + 32) else c

/-- One non-`%` pattern character against one text character: `_` matches
anything, otherwise compare up to ASCII case. -/
def likeCharMatch (p c : Char) : Bool :=
  p == '_' || asciiLower p == asciiLower c

/-- SQLite `LIKE` pattern matching over character lists. -/
def likeMatch : List Char → List Char → Bool
  | [], s => s.isEmpty
  | p :: ps, s =>
    if p == '%' then s.tails.any (fun u => likeMatch ps u)
    else
      match s with
      | [] => false
      | c :: s2 => likeCharMatch p c && likeMatch ps s2

/-- Evaluation of `text LIKE pattern` on strings. -/
def sqlLike (pattern text : String) : Bool :=
  likeMatch pattern.toList text.toList

/-- Embedding of `Database.search_dgsc`: rows of `pendrives` whose name or description
matches the wrapped `LIKE` pattern.  The `LEFT JOIN users` in the query only adds the
display columns of the owner and, `user_id` being the primary key, neither drops
nor duplicates item rows, so the returned row set is determined by the item
rows alone. -/
def search_dgsc (db : DB) (search_term : String) : List Pendrive :=
  db.pendrives.filter (fun p =>
    sqlLike ("%" ++ search_term ++ "%") p.name ||
    sqlLike ("%" ++ search_term ++ "%") p.description)

/-! ### The spec side of the search claim

The spec describes the search as a case-insensitive substring test, so that
test is defined separately here, from the spec words, to be compared with
`search_dgsc`. -/

/-- Test whether `t` is a leading segment of `s`. -/
def isPrefL : List Char → List Char → Bool
  | [], _ => true
  | _ :: _, [] => false
  | a :: t, b :: s => a == b && isPrefL t s

/-- Test whether `t` occurs contiguously inside `s`. -/
def isSubL (t : List Char) : List Char → Bool
  | [] => t.isEmpty
  | c :: s2 => isPrefL t (c :: s2) || isSubL t s2

/-- Modelled from the spec: "case-insensitive substring match" of the search
term against a field (ASCII case folding). -/
def specCiSubstring (term field : String) : Bool :=
  isSubL (term.toList.map asciiLower) (field.toList.map asciiLower)

/-! ### Display-name resolution (`src/bot.py`)

Several bot commands compute a display name for an owner or requester from
the row fields `(id, username, first_name, last_name)`.  the Python
`x and x.strip()` guard is truthy exactly when the field is present,
non-empty, and non-empty after stripping whitespace. -/

/-- A character that the Python method removes in `str.strip()`. -/
def isPySpace (c : Char) : Bool :=
  c == ' ' || c == '\t' || c == '\n' || c == '\r' || c == '\x0B' || c == '\x0C'

/-- Embedding of the Python method `str.strip()`: drop whitespace from both ends. -/
def pyStrip (s : String) : String :=
  ⟨((s.toList.dropWhile isPySpace).reverse.dropWhile isPySpace).reverse⟩

/-- Truthiness of the Python expression `x and x.strip()` for an optional
text field. -/
def fieldAndStrip (x : Option String) : Bool :=
  match x with
  | none => false
  | some s => s != "" && pyStrip s != ""

/-- Rendering of an optional numeric id inside a Python f-string. -/
def pyShowOptNat : Option Nat → String
  | none => "None"
  | some n => toString n

/-- The display-name block of `DGSCBot.search_command`: first name, else
username, else last name, else `User {id}`. -/
def search_owner_display (owner_id : Option Nat)
    (username first_name last_name : Option String) : String :=
  if fieldAndStrip first_name then pyStrip (first_name.getD "")
  else if fieldAndStrip username then pyStrip (username.getD "")
  else if fieldAndStrip last_name then pyStrip (last_name.getD "")
  else "User " ++ pyShowOptNat owner_id

/-- The display-name block of `DGSCBot.list_all_items_command` (same shape as
the search one). -/
def list_owner_display (owner_id : Option Nat)
    (username first_name last_name : Option String) : String :=
  if fieldAndStrip first_name then pyStrip (first_name.getD "")
  else if fieldAndStrip username then pyStrip (username.getD "")
  else if fieldAndStrip last_name then pyStrip (last_name.getD "")
  else "User " ++ pyShowOptNat owner_id

/-- The display-name block of `DGSCBot.request_item_start` (same shape as
the search one). -/
def request_start_owner_display (owner_id : Option Nat)
    (username first_name last_name : Option String) : String :=
  if fieldAndStrip first_name then pyStrip (first_name.getD "")
  else if fieldAndStrip username then pyStrip (username.getD "")
  else if fieldAndStrip last_name then pyStrip (last_name.getD "")
  else "User " ++ pyShowOptNat owner_id

/-- The display-name block of `DGSCBot.my_requests_command`: it has no
last-name branch (its query selects only `u.username, u.first_name`). -/
def my_requests_owner_display (owner_id : Option Nat)
    (username first_name : Option String) : String :=
  if fieldAndStrip first_name then pyStrip (first_name.getD "")
  else if fieldAndStrip username then pyStrip (username.getD "")
  else "User " ++ pyShowOptNat owner_id

/-- The display-name block of `DGSCBot.pending_requests_command`: like the
my-requests one, with no last-name branch. -/
def pending_requests_requester_display (requester_id : Option Nat)
    (username first_name : Option String) : String :=
  if fieldAndStrip first_name then pyStrip (first_name.getD "")
  else if fieldAndStrip username then pyStrip (username.getD "")
  else "User " ++ pyShowOptNat requester_id

/-- Truthiness of a Python `Optional[str]` value: `None` and the empty
string are falsy. -/
def pyTruthyOptStr : Option String → Bool
  | none => false
  | some s => s != ""

/-- Rendering of a Python `Optional[str]` value inside an f-string. -/
def pyShowOptStr : Option String → String
  | none => "None"
  | some s => s

/-- The requester name shown in the new-request notification of
`DGSCBot.request_item_message`: the Python expression
`first_name or username`, rendered in the notification f-string — no
trimming, no family-name step, and no synthetic fallback. -/
def notification_requester_display (first_name username : Option String) : String :=
  pyShowOptStr (if pyTruthyOptStr first_name then first_name else username)

/-- Modelled from the spec: the display-name resolution policy as the spec
words it — "prefer given-name if non-empty after trimming, else handle if
non-empty, else family-name if non-empty, else a synthetic User {id}
fallback". -/
def specDisplayPolicy (id0 : Option Nat) (handle givenName familyName : Option String) :
    String :=
  if fieldAndStrip givenName then pyStrip (givenName.getD "")
  else if fieldAndStrip handle then pyStrip (handle.getD "")
  else if fieldAndStrip familyName then pyStrip (familyName.getD "")
  else "User " ++ pyShowOptNat id0

/-! ### Concrete stores used to instantiate the theorems -/

/-- A small concrete store: item 1 ("Drive A") owned by user 1, and one
pending request (id 1): user 2 asks user 1 for item 1. -/
def exDB : DB := (create_request (add_dgsc initDB "Drive A" "" 1 0).1 1 2 1 "" 1).1

/-- The pending request row of `exDB`. -/
def exReq : RequestRow := ⟨1, 1, 2, 1, "pending", "", 1, none⟩

/-- A store with a pending self-request: user 1 owns item 1 and also
requests it (requester = snapshotted owner). -/
def exDBself : DB := (create_request (add_dgsc initDB "Drive B" "" 1 0).1 1 1 1 "" 1).1

/-- The pending self-request row of `exDBself`. -/
def exReqSelf : RequestRow := ⟨1, 1, 1, 1, "pending", "", 1, none⟩

/-- A store holding a single item named "Keyboard" with empty description. -/
def exDBkbd : DB := (add_dgsc initDB "Keyboard" "" 1 0).1

/-- A store with three items: "USB Drive" (no description), "Stick" described
"spare drive", and "Keyboard" (no description), all owned by user 1. -/
def exDBdrive : DB :=
  (add_dgsc (add_dgsc (add_dgsc initDB "USB Drive" "" 1 0).1
    "Stick" "spare drive" 1 0).1 "Keyboard" "" 1 0).1

/-- The store `exDB` after user 1 rejected the pending request (at time 5). -/
def exDBrej : DB := (reject_request exDB 1 5).1

/-- The resolved request row of `exDBrej`. -/
def exReqRej : RequestRow := ⟨1, 1, 2, 1, "rejected", "", 1, some 5⟩

/-- A legal value of the `status` column. -/
def GoodStatus (r : RequestRow) : Prop :=
  r.status = "pending" ∨ r.status = "accepted" ∨ r.status = "rejected"

/-- The stores reachable from the freshly initialised database through the
mutating `Database` methods. -/
inductive Reachable : DB → Prop where
  | init : Reachable initDB
  | step_add_user (db : DB) (uid : Nat) (un fn ln : Option String) (now : Nat) :
      Reachable db → Reachable (add_user db uid un fn ln now)
  | step_add_dgsc (db : DB) (name desc : String) (oid now : Nat) :
      Reachable db → Reachable (add_dgsc db name desc oid now).1
  | step_create_request (db : DB) (did rid oid : Nat) (msg : String) (now : Nat) :
      Reachable db → Reachable (create_request db did rid oid msg now).1
  | step_accept (db : DB) (rid now : Nat) :
      Reachable db → Reachable (accept_request db rid now).1
  | step_reject (db : DB) (rid now : Nat) :
      Reachable db → Reachable (reject_request db rid now).1

end TeleShare

namespace TeleShare

/-! ## Theorems -/

/-- Claim C3: registering an item whose exact (case-sensitive) name already
exists fails and leaves the store completely unchanged — no item row, no
transaction row, no modification of any existing row. -/
theorem add_dgsc_duplicate (db : DB) (name desc : String) (oid now : Nat)
    (h : ∃ p ∈ db.pendrives, p.name = name) :
    add_dgsc db name desc oid now = (db, false) := by
  obtain ⟨p, hp, hname⟩ := h
  have hany : db.pendrives.any (fun p => p.name == name) = true :=
    List.any_eq_true.mpr ⟨p, hp, by simp [hname]⟩
  simp [add_dgsc, hany]

/-- Witness for `add_dgsc_duplicate`: registering a second "Drive A" into
`exDB` fails and returns the store unchanged. -/
theorem add_dgsc_duplicate_witness :
    add_dgsc exDB "Drive A" "desc" 2 9 = (exDB, false) :=
  add_dgsc_duplicate exDB "Drive A" "desc" 2 9 ⟨⟨1, "Drive A", "", some 1, 0⟩, by decide, rfl⟩

/-- Claim C7: registering a fresh name succeeds, the item list of the owner gains
exactly one item bearing that name, and the transaction log gains exactly
one `initial_assignment` row from `NULL` to the owner. -/
theorem add_dgsc_fresh_spec (db : DB) (name desc : String) (oid now : Nat)
    (h : ∀ p ∈ db.pendrives, p.name ≠ name) :
    (add_dgsc db name desc oid now).2 = true
    ∧ (add_dgsc db name desc oid now).1.pendrives =
        db.pendrives ++ [⟨db.next_pendrive_id, name, desc, some oid, now⟩]
    ∧ get_user_dgscs (add_dgsc db name desc oid now).1 oid =
        get_user_dgscs db oid ++ [(db.next_pendrive_id, name, desc, now)]
    ∧ (add_dgsc db name desc oid now).1.transactions =
        db.transactions ++
          [⟨db.next_transaction_id, db.next_pendrive_id, none, oid, "initial_assignment", now⟩] := by
  have hany : db.pendrives.any (fun p => p.name == name) = false := by
    rw [Bool.eq_false_iff]
    intro hc
    obtain ⟨p, hp, he⟩ := List.any_eq_true.mp hc
    exact h p hp (by simpa using he)
  refine ⟨?_, ?_, ?_, ?_⟩ <;>
    simp [add_dgsc, hany, get_user_dgscs, List.filter_append, List.map_append]

/-- Witness for `add_dgsc_fresh_spec`: the concrete scenario of the spec — after
`registerItem("Drive A", "", 1)` on the empty store, user 1 owns exactly one
item named "Drive A" and the log holds one `initial_assignment` row
(`NULL → 1`). -/
theorem add_dgsc_fresh_spec_witness :
    (add_dgsc initDB "Drive A" "" 1 0).2 = true
    ∧ get_user_dgscs (add_dgsc initDB "Drive A" "" 1 0).1 1 = [(1, "Drive A", "", 0)]
    ∧ (add_dgsc initDB "Drive A" "" 1 0).1.transactions =
        [⟨1, 1, none, 1, "initial_assignment", 0⟩] := by
  have h := add_dgsc_fresh_spec initDB "Drive A" "" 1 0 (by decide)
  exact ⟨h.1, by simpa using h.2.2.1, by simpa using h.2.2.2⟩

/-- Claim C9: `create_request` never fails and validates nothing: for any
item id (existing or not) and any requester (even the owner), it appends
exactly one request row with status `pending`, a `NULL` resolution
timestamp, exactly the given field values, and returns the new id; no other
table changes. -/
theorem create_request_spec (db : DB) (did rid oid : Nat) (msg : String) (now : Nat) :
    (create_request db did rid oid msg now).2 = db.next_request_id
    ∧ (create_request db did rid oid msg now).1.requests =
        db.requests ++ [⟨db.next_request_id, did, rid, oid, "pending", msg, now, none⟩]
    ∧ (create_request db did rid oid msg now).1.pendrives = db.pendrives
    ∧ (create_request db did rid oid msg now).1.transactions = db.transactions
    ∧ (create_request db did rid oid msg now).1.users = db.users :=
  ⟨rfl, rfl, rfl, rfl, rfl⟩

/-- Claim C4 (counterexample): on the triple (handle "jsmith", empty given
name, family name "Smith") the search-command display block yields
"jsmith", not "Smith" as the claim states. -/
theorem search_display_c4_counterexample :
    search_owner_display (some 5) (some "jsmith") (some "") (some "Smith") ≠ "Smith"
    ∧ search_owner_display (some 5) (some "jsmith") (some "") (some "Smith") = "jsmith" := by
  exact ⟨by decide, by decide⟩

/-- Claim C4 (amended): the triple (handle "jsmith", empty given name,
family name "Smith") resolves to "jsmith" (the handle outranks the family
name), and the all-empty triple resolves to "User {id}". -/
theorem search_display_c4_amended :
    search_owner_display (some 5) (some "jsmith") (some "") (some "Smith") = "jsmith"
    ∧ search_owner_display (some 5) (some "") (some "") (some "") = "User 5" := by
  exact ⟨by decide, by decide⟩

/-- Claim C5 (counterexample): not every name-display place follows the spec
policy.  For a user whose only non-empty field is the family name "Smith",
the policy yields "Smith" but the my-requests site shows "User 7"; and for a
user with no fields at all, the policy yields "User 7" but the new-request
notification site renders "None". -/
theorem display_policy_c5_counterexample :
    my_requests_owner_display (some 7) (some "") (some "") = "User 7"
    ∧ specDisplayPolicy (some 7) (some "") (some "") (some "Smith") = "Smith"
    ∧ my_requests_owner_display (some 7) (some "") (some "") ≠
        specDisplayPolicy (some 7) (some "") (some "") (some "Smith")
    ∧ notification_requester_display none none = "None"
    ∧ specDisplayPolicy (some 7) none none none = "User 7"
    ∧ notification_requester_display none none ≠
        specDisplayPolicy (some 7) none none none := by
  exact ⟨by decide, by decide, by decide, by decide, by decide, by decide⟩

/-- Claim C5 (amended): of the places showing an owner or requester name,
the search, list-all and request-start display blocks implement the spec
policy exactly; the my-requests and pending-requests blocks omit the
family-name step — they equal the policy applied to an absent family name,
so a user whose only non-empty field is the family name is shown as
"User {id}" there; and the new-request notification shows the requester as
`first_name or username` — the untrimmed given name when non-empty, else
the raw username with no family-name step and no "User {id}" fallback (an
absent username renders as "None"). -/
theorem display_policy_c5_amended (oid : Option Nat) (u f l : Option String) :
    search_owner_display oid u f l = specDisplayPolicy oid u f l
    ∧ list_owner_display oid u f l = specDisplayPolicy oid u f l
    ∧ request_start_owner_display oid u f l = specDisplayPolicy oid u f l
    ∧ my_requests_owner_display oid u f = specDisplayPolicy oid u f none
    ∧ pending_requests_requester_display oid u f = specDisplayPolicy oid u f none
    ∧ (pyTruthyOptStr f = true → notification_requester_display f u = f.getD "")
    ∧ notification_requester_display none u = pyShowOptStr u
    ∧ notification_requester_display (some "") u = pyShowOptStr u := by
  refine ⟨rfl, rfl, rfl, ?_, ?_, ?_, rfl, rfl⟩
  · simp [my_requests_owner_display, specDisplayPolicy, fieldAndStrip]
  · simp [pending_requests_requester_display, specDisplayPolicy, fieldAndStrip]
  · intro hf
    cases f with
    | none => simp [pyTruthyOptStr] at hf
    | some s => simp [notification_requester_display, hf, pyShowOptStr]

/-! ### Search: the wrapped `LIKE` pattern versus the substring reading -/

theorem wrap_toList (term : String) :
    ("%" ++ term ++ "%").toList = '%' :: (term.toList ++ ['%']) := by
  show (("%" ++ term) ++ "%").data = _
  rw [String.data_append, String.data_append]
  rfl

theorem likeMatch_pct (ps s : List Char) :
    likeMatch ('%' :: ps) s = s.tails.any (fun u => likeMatch ps u) := by
  simp [likeMatch]

/-- A wildcard-free segment followed by `%` matches exactly when the segment
is a case-insensitive leading segment of the text. -/
theorem likeMatch_seg_pct (t : List Char) (hw : ∀ c ∈ t, c ≠ '%' ∧ c ≠ '_')
    (s : List Char) :
    likeMatch (t ++ ['%']) s = isPrefL (t.map asciiLower) (s.map asciiLower) := by
  induction t generalizing s with
  | nil =>
    have hmem : ([] : List Char) ∈ s.tails := by simp
    have : likeMatch ['%'] s = true := by
      rw [likeMatch_pct [] s, List.any_eq_true]
      exact ⟨[], hmem, rfl⟩
    simpa [isPrefL] using this
  | cons c t ih =>
    have hc : (c == '%') = false := by simpa using (hw c (by simp)).1
    have hc2 : (c == '_') = false := by simpa using (hw c (by simp)).2
    cases s with
    | nil => simp [likeMatch, hc, isPrefL]
    | cons d s2 =>
      have iht := ih (fun x hx => hw x (by simp [hx])) s2
      simp [likeMatch, hc, likeCharMatch, hc2, isPrefL, iht]

/-- Unfolding of the substring test along the text. -/
theorem isSubL_iff (t s : List Char) :
    isSubL t (s.map asciiLower) = true ↔
      ∃ u, u <:+ s ∧ isPrefL t (u.map asciiLower) = true := by
  induction s with
  | nil =>
    cases t with
    | nil => simp [isSubL, isPrefL]
    | cons c t2 => simp [isSubL, isPrefL]
  | cons c s2 ih =>
    constructor
    · intro h
      rcases Bool.or_eq_true_iff.mp (by simpa [isSubL] using h) with h1 | h1
      · exact ⟨c :: s2, List.suffix_refl _, by simpa using h1⟩
      · obtain ⟨u, hu, hp⟩ := ih.mp h1
        exact ⟨u, hu.trans (List.suffix_cons c s2), hp⟩
    · rintro ⟨u, hu, hp⟩
      rcases List.suffix_cons_iff.mp hu with rfl | hu2
      · simp only [isSubL, Bool.or_eq_true_iff]
        exact Or.inl (by simpa using hp)
      · simp only [isSubL, Bool.or_eq_true_iff]
        exact Or.inr (ih.mpr ⟨u, hu2, hp⟩)

/-- On wildcard-free search terms the `LIKE` filter of the source agrees
with the case-insensitive substring test of the spec. -/
theorem sqlLike_wrap_eq (term field : String)
    (hw : ∀ c ∈ term.toList, c ≠ '%' ∧ c ≠ '_') :
    sqlLike ("%" ++ term ++ "%") field = specCiSubstring term field := by
  rw [Bool.eq_iff_iff]
  unfold sqlLike specCiSubstring
  rw [wrap_toList, likeMatch_pct, isSubL_iff, List.any_eq_true]
  constructor
  · rintro ⟨u, hu, hm⟩
    refine ⟨u, (List.mem_tails u field.toList).mp hu, ?_⟩
    rw [← likeMatch_seg_pct term.toList hw u]
    exact hm
  · rintro ⟨u, hu, hp⟩
    refine ⟨u, (List.mem_tails u field.toList).mpr hu, ?_⟩
    rw [likeMatch_seg_pct term.toList hw u]
    exact hp

/-- Claim C6 (amended): for every search term free of the SQL `LIKE`
wildcards `%` and `_`, the search returns exactly the items whose name or
description contains the term as an ASCII-case-insensitive substring; an
item matching neither field is not returned.  (A term containing a wildcard
is instead interpreted as a `LIKE` pattern.) -/
theorem search_dgsc_spec (db : DB) (term : String)
    (hw : ∀ c ∈ term.toList, c ≠ '%' ∧ c ≠ '_') :
    search_dgsc db term =
      db.pendrives.filter (fun p =>
        specCiSubstring term p.name || specCiSubstring term p.description) := by
  unfold search_dgsc
  exact List.filter_congr (fun p _ => by
    rw [sqlLike_wrap_eq term p.name hw, sqlLike_wrap_eq term p.description hw])

/-- Witness for `search_dgsc_spec`: searching "drive" over `exDBdrive`
returns exactly the substring matches — "USB Drive" (name match) and
"Stick" (description "spare drive"), but not "Keyboard". -/
theorem search_dgsc_spec_witness :
    search_dgsc exDBdrive "drive" =
      exDBdrive.pendrives.filter (fun p =>
        specCiSubstring "drive" p.name || specCiSubstring "drive" p.description)
    ∧ search_dgsc exDBdrive "drive" =
        [⟨1, "USB Drive", "", some 1, 0⟩, ⟨2, "Stick", "spare drive", some 1, 0⟩] := by
  refine ⟨search_dgsc_spec exDBdrive "drive" (by decide), by decide⟩

/-- Claim C6 (counterexample): the claim fails on the search term "%" — it
is a substring of no field of the "Keyboard" item, yet the item is
returned, because `LIKE` reads `%` as a wildcard. -/
theorem search_dgsc_counterexample :
    (⟨1, "Keyboard", "", some 1, 0⟩ : Pendrive) ∈ search_dgsc exDBkbd "%"
    ∧ specCiSubstring "%" "Keyboard" = false
    ∧ specCiSubstring "%" "" = false := by
  exact ⟨by decide, by decide, by decide⟩

/-! ### Request resolution -/

theorem map_id_of {α : Type} {f : α → α} {l : List α} (h : ∀ a ∈ l, f a = a) :
    l.map f = l := by
  induction l with
  | nil => rfl
  | cons x xs ih => simp [h x (by simp), ih (fun a ha => h a (by simp [ha]))]

/-- In a list of requests with pairwise distinct ids, the id determines the
row. -/
theorem mem_unique_of_id {l : List RequestRow}
    (hl : l.Pairwise (fun a b => a.id ≠ b.id)) {a b : RequestRow}
    (ha : a ∈ l) (hb : b ∈ l) (hid : a.id = b.id) : a = b := by
  induction l with
  | nil => cases ha
  | cons x xs ih =>
    rcases List.pairwise_cons.mp hl with ⟨hx, hxs⟩
    rcases List.mem_cons.mp ha with rfl | ha2
    · rcases List.mem_cons.mp hb with rfl | hb2
      · rfl
      · exact absurd hid (hx b hb2)
    · rcases List.mem_cons.mp hb with rfl | hb2
      · exact absurd hid.symm (hx a ha2)
      · exact ih hxs ha2 hb2

/-- The `fetchone` of `accept_request` finds exactly the pending request
whose id was passed. -/
theorem find_pending {l : List RequestRow}
    (hl : l.Pairwise (fun a b => a.id ≠ b.id)) {r : RequestRow}
    (hr : r ∈ l) (hp : r.status = "pending") :
    l.find? (fun q => q.id == r.id && q.status == "pending") = some r := by
  cases hfind : l.find? (fun q => q.id == r.id && q.status == "pending") with
  | none =>
    exfalso
    have := List.find?_eq_none.mp hfind r hr
    simp [hp] at this
  | some q =>
    have hqmem := List.mem_of_find?_eq_some hfind
    have hq : q.id = r.id ∧ q.status = "pending" := by
      simpa using List.find?_some hfind
    rw [mem_unique_of_id hl hqmem hr hq.1]

/-- The effect of `accept_request` on a present pending request. -/
theorem accept_request_of_pending (db : DB) (now : Nat) (r : RequestRow)
    (hWF : db.requests.Pairwise (fun a b => a.id ≠ b.id))
    (hr : r ∈ db.requests) (hp : r.status = "pending") :
    accept_request db r.id now =
      ({ db with
          pendrives := db.pendrives.map (fun p =>
            if p.id == r.pendrive_id then { p with current_owner_id := some r.requester_id }
            else p),
          requests := db.requests.map (fun q =>
            if q.id == r.id then { q with status := "accepted", resolved_at := some now }
            else q),
          transactions := db.transactions ++
            [⟨db.next_transaction_id, r.pendrive_id, some r.current_owner_id, r.requester_id,
              "transfer", now⟩],
          next_transaction_id := db.next_transaction_id + 1 },
        true) := by
  unfold accept_request
  rw [find_pending hWF hr hp]

/-- Calling `accept_request` on an id with no pending request is a strict no-op. -/
theorem accept_request_no_pending (db : DB) (rid now : Nat)
    (h : ∀ q ∈ db.requests, ¬(q.id = rid ∧ q.status = "pending")) :
    accept_request db rid now = (db, false) := by
  have hn : db.requests.find? (fun q => q.id == rid && q.status == "pending") = none :=
    List.find?_eq_none.mpr (fun q hq => by simpa using h q hq)
  unfold accept_request
  rw [hn]

/-- Claim C1: accepting an existing pending request returns true, rewrites
the owner of the item to the requester, resolves the request to accepted with a
resolution timestamp, and appends exactly one `transfer` transaction from
the owner id snapshotted in the request to the requester; accepting an id
with no pending request returns false and changes nothing, so in particular
a second accept of the same id returns false and leaves the store — hence
the ownership — at its post-transfer value. -/
theorem accept_request_spec (db : DB) (now now2 : Nat) (r : RequestRow)
    (hWF : db.requests.Pairwise (fun a b => a.id ≠ b.id))
    (hr : r ∈ db.requests) (hp : r.status = "pending") :
    (accept_request db r.id now).2 = true
    ∧ (accept_request db r.id now).1.pendrives =
        db.pendrives.map (fun p =>
          if p.id == r.pendrive_id then { p with current_owner_id := some r.requester_id }
          else p)
    ∧ (accept_request db r.id now).1.requests =
        db.requests.map (fun q =>
          if q.id == r.id then { q with status := "accepted", resolved_at := some now }
          else q)
    ∧ (accept_request db r.id now).1.transactions =
        db.transactions ++
          [⟨db.next_transaction_id, r.pendrive_id, some r.current_owner_id, r.requester_id,
            "transfer", now⟩]
    ∧ accept_request (accept_request db r.id now).1 r.id now2 =
        ((accept_request db r.id now).1, false)
    ∧ (∀ rid, (∀ q ∈ db.requests, ¬(q.id = rid ∧ q.status = "pending")) →
        accept_request db rid now2 = (db, false)) := by
  have hmain := accept_request_of_pending db now r hWF hr hp
  refine ⟨by rw [hmain], by rw [hmain], by rw [hmain], by rw [hmain], ?_,
    fun rid hno => accept_request_no_pending db rid now2 hno⟩
  apply accept_request_no_pending
  intro q hq
  rw [hmain] at hq
  obtain ⟨q0, hq0, rfl⟩ := List.mem_map.mp hq
  rintro ⟨hid, hstat⟩
  by_cases h0 : q0.id = r.id
  · simp only [h0, beq_self_eq_true, if_true] at hstat
    exact absurd hstat (by decide)
  · rw [if_neg (by simpa using h0)] at hid
    exact h0 hid

/-- Witness for `accept_request_spec`: accepting the pending request of
`exDB` transfers "Drive A" from user 1 to user 2, and a second accept of the
same id is a failing no-op. -/
theorem accept_request_spec_witness :
    (accept_request exDB exReq.id 9).2 = true
    ∧ accept_request (accept_request exDB exReq.id 9).1 exReq.id 10 =
        ((accept_request exDB exReq.id 9).1, false)
    ∧ (accept_request exDB exReq.id 9).1.pendrives = [⟨1, "Drive A", "", some 2, 0⟩]
    ∧ (accept_request exDB exReq.id 9).1.transactions =
        [⟨1, 1, none, 1, "initial_assignment", 0⟩, ⟨2, 1, some 1, 2, "transfer", 9⟩] := by
  have h := accept_request_spec exDB 9 10 exReq (by decide) (by decide) rfl
  refine ⟨h.1, h.2.2.2.2.1, ?_, ?_⟩
  · rw [h.2.1]; decide
  · rw [h.2.2.2.1]; decide

/-- Claim C8: `reject_request` returns true exactly when a pending request
with the given id exists, in which case that request becomes rejected with a
resolution timestamp; it never changes items, transactions, or users, and
leaves every other request untouched. -/
theorem reject_request_spec (db : DB) (rid now : Nat) :
    ((reject_request db rid now).2 = true ↔
      ∃ q ∈ db.requests, q.id = rid ∧ q.status = "pending")
    ∧ (reject_request db rid now).1.pendrives = db.pendrives
    ∧ (reject_request db rid now).1.transactions = db.transactions
    ∧ (reject_request db rid now).1.users = db.users
    ∧ (reject_request db rid now).1.requests = db.requests.map (fun q =>
        if q.id == rid && q.status == "pending" then
          { q with status := "rejected", resolved_at := some now }
        else q)
    ∧ (∀ q ∈ db.requests, ¬(q.id = rid ∧ q.status = "pending") →
        q ∈ (reject_request db rid now).1.requests)
    ∧ (∀ q ∈ db.requests, q.id = rid → q.status = "pending" →
        { q with status := "rejected", resolved_at := some now } ∈
          (reject_request db rid now).1.requests) := by
  refine ⟨?_, rfl, rfl, rfl, rfl, ?_, ?_⟩
  · simp [reject_request, List.countP_pos_iff]
  · intro q hq hnot
    have hb : (q.id == rid && q.status == "pending") = false :=
      Bool.eq_false_iff.mpr (fun hc => hnot (by simpa using hc))
    exact List.mem_map.mpr ⟨q, hq, by rw [if_neg (by simp [hb])]⟩
  · intro q hq h1 h2
    have hb : (q.id == rid && q.status == "pending") = true := by simp [h1, h2]
    exact List.mem_map.mpr ⟨q, hq, by rw [if_pos hb]⟩

/-- Claim C10: the storage layer accepts a pending self-request (requester
equal to the snapshotted owner): it returns true, rewrites the owner of the item
to the requester (so an owner that already was the requester is unchanged),
marks the request accepted, and still appends a `transfer` transaction whose
from-user equals its to-user. -/
theorem accept_self_request_spec (db : DB) (now : Nat) (r : RequestRow)
    (hWF : db.requests.Pairwise (fun a b => a.id ≠ b.id))
    (hr : r ∈ db.requests) (hp : r.status = "pending")
    (hself : r.requester_id = r.current_owner_id) :
    (accept_request db r.id now).2 = true
    ∧ (accept_request db r.id now).1.pendrives =
        db.pendrives.map (fun p =>
          if p.id == r.pendrive_id then { p with current_owner_id := some r.requester_id }
          else p)
    ∧ ((∀ p ∈ db.pendrives, p.id = r.pendrive_id → p.current_owner_id = some r.requester_id) →
        (accept_request db r.id now).1.pendrives = db.pendrives)
    ∧ (∀ q ∈ (accept_request db r.id now).1.requests, q.id = r.id → q.status = "accepted")
    ∧ (accept_request db r.id now).1.transactions =
        db.transactions ++
          [⟨db.next_transaction_id, r.pendrive_id, some r.requester_id, r.requester_id,
            "transfer", now⟩] := by
  have hmain := accept_request_of_pending db now r hWF hr hp
  refine ⟨by rw [hmain], by rw [hmain], ?_, ?_, ?_⟩
  · intro hall
    rw [hmain]
    apply map_id_of
    intro p hp2
    by_cases hpid : p.id = r.pendrive_id
    · have hown := hall p hp2 hpid
      rw [if_pos (by simpa using hpid)]
      rw [← hown]
    · rw [if_neg (by simpa using hpid)]
  · intro q hq hid
    rw [hmain] at hq
    obtain ⟨q0, hq0, rfl⟩ := List.mem_map.mp hq
    by_cases h0 : q0.id = r.id
    · simp [h0]
    · rw [if_neg (by simpa using h0)] at hid ⊢
      exact absurd hid h0
  · rw [hmain, hself]

/-- Witness for `accept_self_request_spec`: accepting the pending
self-request of `exDBself` succeeds, leaves the item with its old owner,
and logs a transfer from user 1 to user 1. -/
theorem accept_self_request_spec_witness :
    (accept_request exDBself exReqSelf.id 9).2 = true
    ∧ (accept_request exDBself exReqSelf.id 9).1.pendrives = exDBself.pendrives
    ∧ (accept_request exDBself exReqSelf.id 9).1.transactions =
        [⟨1, 1, none, 1, "initial_assignment", 0⟩, ⟨2, 1, some 1, 1, "transfer", 9⟩] := by
  have h := accept_self_request_spec exDBself 9 exReqSelf (by decide) (by decide) rfl rfl
  refine ⟨h.1, h.2.2.1 (by decide), ?_⟩
  rw [h.2.2.2.2]
  decide

/-! ### The request state machine over reachable stores -/

theorem add_dgsc_requests (db : DB) (name desc : String) (oid now : Nat) :
    (add_dgsc db name desc oid now).1.requests = db.requests := by
  unfold add_dgsc
  split <;> rfl

theorem add_dgsc_next_request_id (db : DB) (name desc : String) (oid now : Nat) :
    (add_dgsc db name desc oid now).1.next_request_id = db.next_request_id := by
  unfold add_dgsc
  split <;> rfl

/-- The per-row update of `accept_request` keeps the request id. -/
theorem accept_upd_id (rid now : Nat) (q : RequestRow) :
    (if q.id == rid then { q with status := "accepted", resolved_at := some now }
     else q).id = q.id := by
  by_cases h0 : q.id = rid
  · rw [if_pos (by simpa using h0)]
  · rw [if_neg (by simpa using h0)]

/-- The per-row update of `reject_request` keeps the request id. -/
theorem reject_upd_id (rid now : Nat) (q : RequestRow) :
    (if q.id == rid && q.status == "pending" then
      { q with status := "rejected", resolved_at := some now }
     else q).id = q.id := by
  by_cases h0 : (q.id == rid && q.status == "pending") = true
  · rw [if_pos h0]
  · rw [if_neg h0]

/-- Invariant of reachable stores: legal statuses, pairwise distinct request
ids, ids below the `AUTOINCREMENT` counter. -/
theorem reachable_requests_inv (db : DB) (h : Reachable db) :
    (∀ r ∈ db.requests, GoodStatus r)
    ∧ db.requests.Pairwise (fun a b => a.id ≠ b.id)
    ∧ (∀ r ∈ db.requests, r.id < db.next_request_id) := by
  induction h with
  | init => refine ⟨?_, ?_, ?_⟩ <;> simp [initDB]
  | step_add_user db uid un fn ln now _ ih => exact ih
  | step_add_dgsc db name desc oid now _ ih =>
    rw [add_dgsc_requests, add_dgsc_next_request_id]
    exact ih
  | step_create_request db did rid oid msg now _ ih =>
    obtain ⟨hs, hpw, hb⟩ := ih
    refine ⟨?_, ?_, ?_⟩
    · intro r hr
      rcases List.mem_append.mp hr with h1 | h1
      · exact hs r h1
      · obtain rfl := List.mem_singleton.mp h1
        exact Or.inl rfl
    · refine List.pairwise_append.mpr ⟨hpw, List.pairwise_singleton _ _, ?_⟩
      intro a ha b hbm
      obtain rfl := List.mem_singleton.mp hbm
      exact Nat.ne_of_lt (hb a ha)
    · intro r hr
      rcases List.mem_append.mp hr with h1 | h1
      · exact Nat.lt_succ_of_lt (hb r h1)
      · obtain rfl := List.mem_singleton.mp h1
        exact Nat.lt_succ_self _
  | step_accept db rid now _ ih =>
    obtain ⟨hs, hpw, hb⟩ := ih
    cases hfind : db.requests.find? (fun q => q.id == rid && q.status == "pending") with
    | none =>
      have hnoop : accept_request db rid now = (db, false) := by
        unfold accept_request
        rw [hfind]
      rw [hnoop]
      exact ⟨hs, hpw, hb⟩
    | some r0 =>
      have hreq : (accept_request db rid now).1.requests =
          db.requests.map (fun q =>
            if q.id == rid then { q with status := "accepted", resolved_at := some now }
            else q) := by
        unfold accept_request
        rw [hfind]
      have hnext : (accept_request db rid now).1.next_request_id = db.next_request_id := by
        unfold accept_request
        rw [hfind]
      rw [hreq, hnext]
      refine ⟨?_, ?_, ?_⟩
      · intro q hq
        obtain ⟨q0, hq0, rfl⟩ := List.mem_map.mp hq
        by_cases h0 : q0.id = rid
        · rw [if_pos (by simpa using h0)]
          exact Or.inr (Or.inl rfl)
        · rw [if_neg (by simpa using h0)]
          exact hs q0 hq0
      · exact hpw.map _ (fun a b hab => by
          simp only [accept_upd_id]
          exact hab)
      · intro q hq
        obtain ⟨q0, hq0, rfl⟩ := List.mem_map.mp hq
        simpa only [accept_upd_id] using hb q0 hq0
  | step_reject db rid now _ ih =>
    obtain ⟨hs, hpw, hb⟩ := ih
    have hreq : (reject_request db rid now).1.requests =
        db.requests.map (fun q =>
          if q.id == rid && q.status == "pending" then
            { q with status := "rejected", resolved_at := some now }
          else q) := rfl
    have hnext : (reject_request db rid now).1.next_request_id = db.next_request_id := rfl
    rw [hreq, hnext]
    refine ⟨?_, ?_, ?_⟩
    · intro q hq
      obtain ⟨q0, hq0, rfl⟩ := List.mem_map.mp hq
      by_cases h0 : (q0.id == rid && q0.status == "pending") = true
      · rw [if_pos h0]
        exact Or.inr (Or.inr rfl)
      · rw [if_neg h0]
        exact hs q0 hq0
    · exact hpw.map _ (fun a b hab => by
        simp only [reject_upd_id]
        exact hab)
    · intro q hq
      obtain ⟨q0, hq0, rfl⟩ := List.mem_map.mp hq
      simpa only [reject_upd_id] using hb q0 hq0

/-- Claim C2: in every reachable store the status of every request is pending,
accepted, or rejected; user upsert and item registration never touch
requests; request creation only appends a fresh pending row; accept and
reject change a stored request only from pending to accepted (resp.
rejected) with a resolution timestamp; and a resolved request is never
modified again — it survives every later accept/reject unchanged, and any
accept or reject call on its id returns false instead of raising. -/
theorem request_lifecycle_spec (db : DB) (h : Reachable db) :
    (∀ r ∈ db.requests,
      r.status = "pending" ∨ r.status = "accepted" ∨ r.status = "rejected")
    ∧ (∀ uid un fn ln now, (add_user db uid un fn ln now).requests = db.requests)
    ∧ (∀ name desc oid now, (add_dgsc db name desc oid now).1.requests = db.requests)
    ∧ (∀ did rid oid msg now, (create_request db did rid oid msg now).1.requests =
        db.requests ++ [⟨db.next_request_id, did, rid, oid, "pending", msg, now, none⟩])
    ∧ (∀ rid now q q2, q ∈ db.requests → q2 ∈ (accept_request db rid now).1.requests →
        q2.id = q.id →
        q2 = q ∨ (q.status = "pending" ∧
          q2 = { q with status := "accepted", resolved_at := some now }))
    ∧ (∀ rid now q q2, q ∈ db.requests → q2 ∈ (reject_request db rid now).1.requests →
        q2.id = q.id →
        q2 = q ∨ (q.status = "pending" ∧
          q2 = { q with status := "rejected", resolved_at := some now }))
    ∧ (∀ r ∈ db.requests, r.status ≠ "pending" →
        (∀ rid now, r ∈ (accept_request db rid now).1.requests)
        ∧ (∀ rid now, r ∈ (reject_request db rid now).1.requests)
        ∧ (∀ now, (accept_request db r.id now).2 = false)
        ∧ (∀ now, (reject_request db r.id now).2 = false)) := by
  obtain ⟨hs, hpw, -⟩ := reachable_requests_inv db h
  refine ⟨hs, fun uid un fn ln now => rfl,
    fun name desc oid now => add_dgsc_requests db name desc oid now,
    fun did rid oid msg now => rfl, ?_, ?_, ?_⟩
  · -- accept changes a stored row only pending → accepted
    intro rid now q q2 hq hq2 hid
    cases hfind : db.requests.find? (fun x => x.id == rid && x.status == "pending") with
    | none =>
      have hnoop : accept_request db rid now = (db, false) := by
        unfold accept_request
        rw [hfind]
      rw [hnoop] at hq2
      exact Or.inl (mem_unique_of_id hpw hq2 hq hid)
    | some r0 =>
      have hr0mem := List.mem_of_find?_eq_some hfind
      have hr0 : r0.id = rid ∧ r0.status = "pending" := by
        simpa using List.find?_some hfind
      have hreq : (accept_request db rid now).1.requests =
          db.requests.map (fun x =>
            if x.id == rid then { x with status := "accepted", resolved_at := some now }
            else x) := by
        unfold accept_request
        rw [hfind]
      rw [hreq] at hq2
      obtain ⟨q0, hq0, rfl⟩ := List.mem_map.mp hq2
      have hq0q : q0 = q := by
        refine mem_unique_of_id hpw hq0 hq ?_
        rw [← accept_upd_id rid now q0]
        exact hid
      subst hq0q
      by_cases h0 : q0.id = rid
      · have hqr0 : q0 = r0 := mem_unique_of_id hpw hq hr0mem (by rw [h0, hr0.1])
        refine Or.inr ⟨hqr0 ▸ hr0.2, ?_⟩
        rw [if_pos (by simpa using h0)]
      · exact Or.inl (by rw [if_neg (by simpa using h0)])
  · -- reject changes a stored row only pending → rejected
    intro rid now q q2 hq hq2 hid
    have hreq : (reject_request db rid now).1.requests =
        db.requests.map (fun x =>
          if x.id == rid && x.status == "pending" then
            { x with status := "rejected", resolved_at := some now }
          else x) := rfl
    rw [hreq] at hq2
    obtain ⟨q0, hq0, rfl⟩ := List.mem_map.mp hq2
    have hq0q : q0 = q := by
      refine mem_unique_of_id hpw hq0 hq ?_
      rw [← reject_upd_id rid now q0]
      exact hid
    subst hq0q
    by_cases h0 : (q0.id == rid && q0.status == "pending") = true
    · have h0p : q0.id = rid ∧ q0.status = "pending" := by simpa using h0
      refine Or.inr ⟨h0p.2, ?_⟩
      rw [if_pos h0]
    · exact Or.inl (by rw [if_neg h0])
  · -- a resolved request is frozen
    intro r hr hnp
    refine ⟨?_, ?_, ?_, ?_⟩
    · intro rid now
      cases hfind : db.requests.find? (fun x => x.id == rid && x.status == "pending") with
      | none =>
        have hnoop : accept_request db rid now = (db, false) := by
          unfold accept_request
          rw [hfind]
        rw [hnoop]
        exact hr
      | some r0 =>
        have hr0mem := List.mem_of_find?_eq_some hfind
        have hr0 : r0.id = rid ∧ r0.status = "pending" := by
          simpa using List.find?_some hfind
        have hrid : r.id ≠ rid := by
          intro he
          have heq : r = r0 := mem_unique_of_id hpw hr hr0mem (by rw [he, hr0.1])
          exact hnp (heq ▸ hr0.2)
        have hreq : (accept_request db rid now).1.requests =
            db.requests.map (fun x =>
              if x.id == rid then { x with status := "accepted", resolved_at := some now }
              else x) := by
          unfold accept_request
          rw [hfind]
        rw [hreq]
        exact List.mem_map.mpr ⟨r, hr, by rw [if_neg (by simpa using hrid)]⟩
    · intro rid now
      have hb : (r.id == rid && r.status == "pending") = false := by
        refine Bool.eq_false_iff.mpr (fun hc => ?_)
        have hc2 : r.id = rid ∧ r.status = "pending" := by simpa using hc
        exact hnp hc2.2
      exact List.mem_map.mpr ⟨r, hr, by rw [if_neg (by simp [hb])]⟩
    · intro now
      have hnoop := accept_request_no_pending db r.id now (fun q hq hqc =>
        hnp ((mem_unique_of_id hpw hq hr hqc.1) ▸ hqc.2))
      rw [hnoop]
    · intro now
      have hcnt : db.requests.countP (fun x => x.id == r.id && x.status == "pending") = 0 := by
        refine List.countP_eq_zero.mpr (fun q hq hc => ?_)
        have hc2 : q.id = r.id ∧ q.status = "pending" := by simpa using hc
        have hqr : q = r := mem_unique_of_id hpw hq hr hc2.1
        exact hnp (hqr ▸ hc2.2)
      simp [reject_request, hcnt]

/-- The concrete store `exDB` is reachable. -/
theorem exDB_reachable : Reachable exDB :=
  Reachable.step_create_request _ 1 2 1 "" 1
    (Reachable.step_add_dgsc initDB "Drive A" "" 1 0 Reachable.init)

/-- The concrete store `exDBrej` is reachable. -/
theorem exDBrej_reachable : Reachable exDBrej :=
  Reachable.step_reject _ 1 5 exDB_reachable

/-- Witness for `request_lifecycle_spec`: in the reachable store `exDBrej`,
whose request 1 is rejected, both a later accept and a later reject of
that id fail. -/
theorem request_lifecycle_spec_witness :
    (accept_request exDBrej exReqRej.id 7).2 = false
    ∧ (reject_request exDBrej exReqRej.id 7).2 = false := by
  have h := request_lifecycle_spec exDBrej exDBrej_reachable
  have h2 := h.2.2.2.2.2.2 exReqRej (by decide) (by decide)
  exact ⟨h2.2.2.1 7, h2.2.2.2 7⟩

end TeleShare
